import Mathlib

/-!
Verification of the bus dispatch and deferred-task scheduling engine
(`src/core/src/bus/mmio.rs`).

The dispatch and scheduling code is translated directly from the source.
The peripheral device models, the per-task completion handlers
(`handle_task_nand` and friends), and the bridge-chip tick
(`handle_step_hlwd`) are not part of the given sources; they are modelled
from the spec as an abstract environment `Env` of opaque functions over an
abstract device-state type.  Rust panics are modelled as an `Except` error
value carrying the same data the panic message formats, paired with the
bus state at the abort point.
-/

namespace Ironic

/-- Access width, `BusWidth` in the source.  The spec's closed enumeration is
{Byte, Half, Word}; the dispatch code only exercises `H` and `W`. -/
inductive BusWidth where
  | B
  | H
  | W
deriving DecidableEq

/-- Identifier of a memory-mapped peripheral, `IoDevice` in the source. -/
inductive IoDevice where
  | Nand
  | Aes
  | Sha
  | Ehci
  | Ohci0
  | Ohci1
  | Sdhc0
  | Sdhc1
  | Hlwd
  | Ahb
  | Di
  | Exi
  | Mi
  | Ddr
deriving DecidableEq

/-- Tagged access value, `BusPacket` in the source: a payload tagged with the
width that produced it.  Machine integers are modelled as `Nat`. -/
inductive BusPacket where
  | Byte (val : Nat)
  | Half (val : Nat)
  | Word (val : Nat)
deriving DecidableEq

/-- Deferred follow-up action a device write may report, `BusTask` in the
source.  The device-specific completion payloads are opaque to the bus and
modelled as `Nat`. -/
inductive BusTask where
  | Nand (x : Nat)
  | Aes (x : Nat)
  | Sha (x : Nat)
  | Mi (kind : Nat) (data : Nat)
  | SetRomDisabled (x : Bool)
  | SetMirrorEnabled (x : Bool)
deriving DecidableEq

/-- Scheduled task, `Task` in the source: a deferred task paired with the
absolute cycle at which it becomes eligible. -/
structure Task where
  kind : BusTask
  target_cycle : Nat
deriving DecidableEq

/-- Diagnostic data of a fatal dispatch abort.  The source panics with a
message formatting exactly these values; we model the abort as this value. -/
inductive Fatal where
  | unsupportedRead (width : BusWidth) (dev : IoDevice) (off : Nat)
  | unsupportedWrite (msg : BusPacket) (dev : IoDevice) (off : Nat)
deriving DecidableEq

/-- States of the bridge-chip aggregate and its sub-devices: the source bus
reaches them as `self.hlwd`, `self.hlwd.ahb`, `self.hlwd.di`,
`self.hlwd.exi`, `self.hlwd.mi`, `self.hlwd.ddr`.  `top` is the state of the
bridge chip's own registers (`self.hlwd` as a device). -/
structure HlwdGroup (σ : Type) where
  top : σ
  ahb : σ
  di : σ
  exi : σ
  mi : σ
  ddr : σ
deriving DecidableEq

/-- Bus state, `Bus` in the source: one state per owned device model, the
task queue, the cycle counter and the two configuration flags. -/
structure Bus (σ : Type) where
  nand : σ
  aes : σ
  sha : σ
  ehci : σ
  ohci0 : σ
  ohci1 : σ
  sd0 : σ
  sd1 : σ
  hlwd : HlwdGroup σ
  tasks : List Task
  cycle : Nat
  rom_disabled : Bool
  mirror_enabled : Bool
deriving DecidableEq

/-- Modelled from the spec: the `MmioDevice` capability contract of one
peripheral model over device-state type `σ` — `read(offset)` returns a
tagged value and may advance internal state; `write(offset, value)` applies
the write and optionally reports one deferred follow-up task. -/
structure DevOps (σ : Type) where
  read : σ → Nat → BusPacket × σ
  write : σ → Nat → Nat → σ × Option BusTask

/-- Modelled from the spec: the external collaborators of the bus core —
one `DevOps` per device model, the per-task-kind completion handlers
(`handle_task_nand`, `handle_task_aes`, `handle_task_sha`,
`handle_task_mi`), and the bridge-chip time-driven update
(`handle_step_hlwd`).  Handlers consume the payload and mutate that device's
model; per the spec's cascading description they may also report further
zero-delay tasks for the bus to enqueue, as may the bridge-chip tick. -/
structure Env (σ : Type) where
  nandOps : DevOps σ
  aesOps : DevOps σ
  shaOps : DevOps σ
  ehciOps : DevOps σ
  ohci0Ops : DevOps σ
  ohci1Ops : DevOps σ
  sd0Ops : DevOps σ
  sd1Ops : DevOps σ
  hlwdOps : DevOps σ
  ahbOps : DevOps σ
  diOps : DevOps σ
  exiOps : DevOps σ
  miOps : DevOps σ
  ddrOps : DevOps σ
  handleNand : σ → Nat → σ × List BusTask
  handleAes : σ → Nat → σ × List BusTask
  handleSha : σ → Nat → σ × List BusTask
  handleMi : σ → Nat → Nat → σ × List BusTask
  stepHlwd : HlwdGroup σ → Nat → HlwdGroup σ × List BusTask

variable {σ : Type}

/-- Per-task-kind additional scheduling delay: the `match` on the task in
`do_mmio_write` computing `c`.  Every arm is `0` in the source. -/
def taskDelay : BusTask → Nat
  | BusTask.Nand _ => 0
  | BusTask.Aes _ => 0
  | BusTask.Sha _ => 0
  | BusTask.Mi _ _ => 0
  | BusTask.SetRomDisabled _ => 0
  | BusTask.SetMirrorEnabled _ => 0

/-- Append one scheduled task at the end of the queue with target cycle
`cycle + taskDelay`, as `self.tasks.push(Task { kind, target_cycle })`. -/
def schedTask (b : Bus σ) (t : BusTask) : Bus σ :=
  { b with tasks := b.tasks ++ [{ kind := t, target_cycle := b.cycle + taskDelay t }] }

/-- Tail of `do_mmio_write`: if the device returned some task, schedule it. -/
def schedOpt (b : Bus σ) : Option BusTask → Bus σ
  | none => b
  | some t => schedTask b t

/-- Schedule a list of reported tasks in order (used by the modelled
handlers and tick, which may report several zero-delay tasks). -/
def schedList (b : Bus σ) (ts : List BusTask) : Bus σ :=
  ts.foldl schedTask b

/-- Dispatch a physical read access to some memory-mapped I/O device:
`Bus::do_mmio_read`.  On a defined `(width, device)` pair the read is
forwarded to the owning device model; otherwise the source panics, modelled
as the `Fatal` error with the unchanged bus. -/
def do_mmio_read (env : Env σ) (b : Bus σ) (dev : IoDevice) (off : Nat)
    (width : BusWidth) : Except Fatal BusPacket × Bus σ :=
  match width, dev with
  | BusWidth.W, IoDevice.Nand =>
      let r := env.nandOps.read b.nand off
      (Except.ok r.1, { b with nand := r.2 })
  | BusWidth.W, IoDevice.Aes =>
      let r := env.aesOps.read b.aes off
      (Except.ok r.1, { b with aes := r.2 })
  | BusWidth.W, IoDevice.Sha =>
      let r := env.shaOps.read b.sha off
      (Except.ok r.1, { b with sha := r.2 })
  | BusWidth.W, IoDevice.Ehci =>
      let r := env.ehciOps.read b.ehci off
      (Except.ok r.1, { b with ehci := r.2 })
  | BusWidth.W, IoDevice.Ohci0 =>
      let r := env.ohci0Ops.read b.ohci0 off
      (Except.ok r.1, { b with ohci0 := r.2 })
  | BusWidth.W, IoDevice.Ohci1 =>
      let r := env.ohci1Ops.read b.ohci1 off
      (Except.ok r.1, { b with ohci1 := r.2 })
  | BusWidth.W, IoDevice.Sdhc0 =>
      let r := env.sd0Ops.read b.sd0 off
      (Except.ok r.1, { b with sd0 := r.2 })
  | BusWidth.W, IoDevice.Sdhc1 =>
      let r := env.sd1Ops.read b.sd1 off
      (Except.ok r.1, { b with sd1 := r.2 })
  | BusWidth.W, IoDevice.Hlwd =>
      let r := env.hlwdOps.read b.hlwd.top off
      (Except.ok r.1, { b with hlwd := { b.hlwd with top := r.2 } })
  | BusWidth.W, IoDevice.Ahb =>
      let r := env.ahbOps.read b.hlwd.ahb off
      (Except.ok r.1, { b with hlwd := { b.hlwd with ahb := r.2 } })
  | BusWidth.W, IoDevice.Di =>
      let r := env.diOps.read b.hlwd.di off
      (Except.ok r.1, { b with hlwd := { b.hlwd with di := r.2 } })
  | BusWidth.W, IoDevice.Exi =>
      let r := env.exiOps.read b.hlwd.exi off
      (Except.ok r.1, { b with hlwd := { b.hlwd with exi := r.2 } })
  | BusWidth.H, IoDevice.Mi =>
      let r := env.miOps.read b.hlwd.mi off
      (Except.ok r.1, { b with hlwd := { b.hlwd with mi := r.2 } })
  | BusWidth.H, IoDevice.Ddr =>
      let r := env.ddrOps.read b.hlwd.ddr off
      (Except.ok r.1, { b with hlwd := { b.hlwd with ddr := r.2 } })
  | w, d => (Except.error (Fatal.unsupportedRead w d off), b)

/-- Inner `match` of `Bus::do_mmio_write`: route the tagged payload to the
owning device model, yielding the device-updated bus and the optional task
the device reported. -/
def writeDispatch (env : Env σ) (b : Bus σ) (dev : IoDevice) (off : Nat)
    (msg : BusPacket) : Except Fatal (Bus σ × Option BusTask) :=
  match msg, dev with
  | BusPacket.Word val, IoDevice.Nand =>
      let r := env.nandOps.write b.nand off val
      Except.ok ({ b with nand := r.1 }, r.2)
  | BusPacket.Word val, IoDevice.Aes =>
      let r := env.aesOps.write b.aes off val
      Except.ok ({ b with aes := r.1 }, r.2)
  | BusPacket.Word val, IoDevice.Sha =>
      let r := env.shaOps.write b.sha off val
      Except.ok ({ b with sha := r.1 }, r.2)
  | BusPacket.Word val, IoDevice.Ehci =>
      let r := env.ehciOps.write b.ehci off val
      Except.ok ({ b with ehci := r.1 }, r.2)
  | BusPacket.Word val, IoDevice.Ohci0 =>
      let r := env.ohci0Ops.write b.ohci0 off val
      Except.ok ({ b with ohci0 := r.1 }, r.2)
  | BusPacket.Word val, IoDevice.Ohci1 =>
      let r := env.ohci1Ops.write b.ohci1 off val
      Except.ok ({ b with ohci1 := r.1 }, r.2)
  | BusPacket.Word val, IoDevice.Sdhc0 =>
      let r := env.sd0Ops.write b.sd0 off val
      Except.ok ({ b with sd0 := r.1 }, r.2)
  | BusPacket.Word val, IoDevice.Sdhc1 =>
      let r := env.sd1Ops.write b.sd1 off val
      Except.ok ({ b with sd1 := r.1 }, r.2)
  | BusPacket.Word val, IoDevice.Hlwd =>
      let r := env.hlwdOps.write b.hlwd.top off val
      Except.ok ({ b with hlwd := { b.hlwd with top := r.1 } }, r.2)
  | BusPacket.Word val, IoDevice.Ahb =>
      let r := env.ahbOps.write b.hlwd.ahb off val
      Except.ok ({ b with hlwd := { b.hlwd with ahb := r.1 } }, r.2)
  | BusPacket.Word val, IoDevice.Exi =>
      let r := env.exiOps.write b.hlwd.exi off val
      Except.ok ({ b with hlwd := { b.hlwd with exi := r.1 } }, r.2)
  | BusPacket.Word val, IoDevice.Di =>
      let r := env.diOps.write b.hlwd.di off val
      Except.ok ({ b with hlwd := { b.hlwd with di := r.1 } }, r.2)
  | BusPacket.Half val, IoDevice.Mi =>
      let r := env.miOps.write b.hlwd.mi off val
      Except.ok ({ b with hlwd := { b.hlwd with mi := r.1 } }, r.2)
  | BusPacket.Half val, IoDevice.Ddr =>
      let r := env.ddrOps.write b.hlwd.ddr off val
      Except.ok ({ b with hlwd := { b.hlwd with ddr := r.1 } }, r.2)
  | m, d => Except.error (Fatal.unsupportedWrite m d off)

/-- Dispatch a physical write access to some memory-mapped I/O device:
`Bus::do_mmio_write`.  On a defined `(tag, device)` pair the write is
forwarded and a reported task, if any, is scheduled at
`self.cycle + c`; otherwise the source panics, modelled as the `Fatal`
error with the unchanged bus. -/
def do_mmio_write (env : Env σ) (b : Bus σ) (dev : IoDevice) (off : Nat)
    (msg : BusPacket) : Except Fatal Unit × Bus σ :=
  match writeDispatch env b dev off msg with
  | Except.error e => (Except.error e, b)
  | Except.ok (b1, task) => (Except.ok (), schedOpt b1 task)

/-- Mutation performed when one scheduled task is executed by the drain
loop: the `match task.kind` in `Bus::drain_tasks`.  NAND/AES/SHA/MI payloads
are forwarded to the (modelled) per-device completion handlers; the two flag
kinds assign their field directly.  Returns the device-updated bus together
with the further tasks the handler reported. -/
def applyHandler (env : Env σ) (b : Bus σ) : BusTask → Bus σ × List BusTask
  | BusTask.Nand x =>
      let r := env.handleNand b.nand x
      ({ b with nand := r.1 }, r.2)
  | BusTask.Aes x =>
      let r := env.handleAes b.aes x
      ({ b with aes := r.1 }, r.2)
  | BusTask.Sha x =>
      let r := env.handleSha b.sha x
      ({ b with sha := r.1 }, r.2)
  | BusTask.Mi kind data =>
      let r := env.handleMi b.hlwd.mi kind data
      ({ b with hlwd := { b.hlwd with mi := r.1 } }, r.2)
  | BusTask.SetRomDisabled x => ({ b with rom_disabled := x }, [])
  | BusTask.SetMirrorEnabled x => ({ b with mirror_enabled := x }, [])

/-- Execute one removed task: apply the kind-specific handling and enqueue
the zero-delay tasks the handler reported, in order. -/
def runTask (env : Env σ) (b : Bus σ) (k : BusTask) : Bus σ :=
  let r := applyHandler env b k
  schedList r.1 r.2

/-- Cursor loop of `Bus::drain_tasks`, made total with explicit `fuel`:
`none` models a run that needs more than `fuel` iterations (the Rust loop
simply keeps running).  At each position: an eligible entry
(`target_cycle <= cycle`) is removed (later entries shift down, the cursor
stays) and executed; an ineligible entry is passed over (`idx + 1`); the
loop returns when the cursor reaches the end of the shrinking queue. -/
def drainLoop (env : Env σ) : Nat → Bus σ → Nat → Option (Bus σ)
  | 0, _, _ => none
  | fuel + 1, b, idx =>
      if h : idx < b.tasks.length then
        let t := b.tasks.get ⟨idx, h⟩
        if t.target_cycle ≤ b.cycle then
          drainLoop env fuel (runTask env { b with tasks := b.tasks.eraseIdx idx } t.kind) idx
        else
          drainLoop env fuel b (idx + 1)
      else some b

/-- Dispatch all of the pending tasks on the bus: `Bus::drain_tasks`. -/
def drain_tasks (env : Env σ) (fuel : Nat) (b : Bus σ) : Option (Bus σ) :=
  drainLoop env fuel b 0

/-- Instrumented variant of `drainLoop` that additionally returns the
executed entries in execution order.  It performs exactly the same state
transformation (see `drainLoopTr_fst`); the trace exists only so that
execution order can be stated. -/
def drainLoopTr (env : Env σ) : Nat → Bus σ → Nat → Option (Bus σ × List Task)
  | 0, _, _ => none
  | fuel + 1, b, idx =>
      if h : idx < b.tasks.length then
        let t := b.tasks.get ⟨idx, h⟩
        if t.target_cycle ≤ b.cycle then
          match drainLoopTr env fuel (runTask env { b with tasks := b.tasks.eraseIdx idx } t.kind) idx with
          | none => none
          | some (b', tr) => some (b', t :: tr)
        else
          drainLoopTr env fuel b (idx + 1)
      else some (b, [])

/-- First phase of `Bus::step`: the bridge-chip time-driven update
(`handle_step_hlwd`, modelled from the spec as updating the bridge-chip
aggregate and possibly enqueuing zero-delay tasks). -/
def stepPre (env : Env σ) (b : Bus σ) (cpu_cycle : Nat) : Bus σ :=
  let r := env.stepHlwd b.hlwd cpu_cycle
  schedList { b with hlwd := r.1 } r.2

/-- Emulate a slice of work on the system bus: `Bus::step`.  The bridge-chip
update runs first, then the task queue is drained if non-empty, and the
cycle counter is incremented last.  `none` models a drain that needs more
than `fuel` iterations. -/
def step (env : Env σ) (fuel : Nat) (b : Bus σ) (cpu_cycle : Nat) : Option (Bus σ) :=
  let b1 := stepPre env b cpu_cycle
  match (if b1.tasks.isEmpty then some b1 else drain_tasks env fuel b1) with
  | none => none
  | some b2 => some { b2 with cycle := b2.cycle + 1 }

/-- Table of the `(width, device)` pairs for which a read dispatch arm is
defined in `Bus::do_mmio_read`. -/
def definedRead : BusWidth → IoDevice → Bool
  | BusWidth.W, IoDevice.Nand => true
  | BusWidth.W, IoDevice.Aes => true
  | BusWidth.W, IoDevice.Sha => true
  | BusWidth.W, IoDevice.Ehci => true
  | BusWidth.W, IoDevice.Ohci0 => true
  | BusWidth.W, IoDevice.Ohci1 => true
  | BusWidth.W, IoDevice.Sdhc0 => true
  | BusWidth.W, IoDevice.Sdhc1 => true
  | BusWidth.W, IoDevice.Hlwd => true
  | BusWidth.W, IoDevice.Ahb => true
  | BusWidth.W, IoDevice.Di => true
  | BusWidth.W, IoDevice.Exi => true
  | BusWidth.H, IoDevice.Mi => true
  | BusWidth.H, IoDevice.Ddr => true
  | _, _ => false

/-- Table of the `(payload tag, device)` pairs for which a write dispatch
arm is defined in `Bus::do_mmio_write`. -/
def definedWrite : BusPacket → IoDevice → Bool
  | BusPacket.Word _, IoDevice.Nand => true
  | BusPacket.Word _, IoDevice.Aes => true
  | BusPacket.Word _, IoDevice.Sha => true
  | BusPacket.Word _, IoDevice.Ehci => true
  | BusPacket.Word _, IoDevice.Ohci0 => true
  | BusPacket.Word _, IoDevice.Ohci1 => true
  | BusPacket.Word _, IoDevice.Sdhc0 => true
  | BusPacket.Word _, IoDevice.Sdhc1 => true
  | BusPacket.Word _, IoDevice.Hlwd => true
  | BusPacket.Word _, IoDevice.Ahb => true
  | BusPacket.Word _, IoDevice.Exi => true
  | BusPacket.Word _, IoDevice.Di => true
  | BusPacket.Half _, IoDevice.Mi => true
  | BusPacket.Half _, IoDevice.Ddr => true
  | _, _ => false

/-- Width tag carried by an access value. -/
def widthOf : BusPacket → BusWidth
  | BusPacket.Byte _ => BusWidth.B
  | BusPacket.Half _ => BusWidth.H
  | BusPacket.Word _ => BusWidth.W

/-- Modelled from the spec: the obligation §4.1 places on device models —
`read` must always return a value tagged with the width the device
supports (word for the twelve word-accessed devices, half-word for the
memory-interface and DRAM-control sub-blocks). -/
def WidthContract (env : Env σ) : Prop :=
  (∀ s off, widthOf (env.nandOps.read s off).1 = BusWidth.W) ∧
  (∀ s off, widthOf (env.aesOps.read s off).1 = BusWidth.W) ∧
  (∀ s off, widthOf (env.shaOps.read s off).1 = BusWidth.W) ∧
  (∀ s off, widthOf (env.ehciOps.read s off).1 = BusWidth.W) ∧
  (∀ s off, widthOf (env.ohci0Ops.read s off).1 = BusWidth.W) ∧
  (∀ s off, widthOf (env.ohci1Ops.read s off).1 = BusWidth.W) ∧
  (∀ s off, widthOf (env.sd0Ops.read s off).1 = BusWidth.W) ∧
  (∀ s off, widthOf (env.sd1Ops.read s off).1 = BusWidth.W) ∧
  (∀ s off, widthOf (env.hlwdOps.read s off).1 = BusWidth.W) ∧
  (∀ s off, widthOf (env.ahbOps.read s off).1 = BusWidth.W) ∧
  (∀ s off, widthOf (env.diOps.read s off).1 = BusWidth.W) ∧
  (∀ s off, widthOf (env.exiOps.read s off).1 = BusWidth.W) ∧
  (∀ s off, widthOf (env.miOps.read s off).1 = BusWidth.H) ∧
  (∀ s off, widthOf (env.ddrOps.read s off).1 = BusWidth.H)

/-- Environments whose completion handlers never report further tasks
(the write path can still schedule, but executing a task cannot cascade). -/
def noSpawn (env : Env σ) : Prop :=
  (∀ s x, (env.handleNand s x).2 = []) ∧
  (∀ s x, (env.handleAes s x).2 = []) ∧
  (∀ s x, (env.handleSha s x).2 = []) ∧
  (∀ s k d, (env.handleMi s k d).2 = [])

/-- Trivial word-width device over the unit state: reads return `Word 0`,
writes report no task.  Used to build concrete environments for witnesses. -/
def wordDev : DevOps Unit :=
  { read := fun _ _ => (BusPacket.Word 0, ()), write := fun _ _ _ => ((), none) }

/-- Trivial half-width device over the unit state. -/
def halfDev : DevOps Unit :=
  { read := fun _ _ => (BusPacket.Half 0, ()), write := fun _ _ _ => ((), none) }

/-- Concrete quiescent environment over the unit state: contract-respecting
devices, handlers and tick that report no tasks. -/
def unitEnv : Env Unit where
  nandOps := wordDev
  aesOps := wordDev
  shaOps := wordDev
  ehciOps := wordDev
  ohci0Ops := wordDev
  ohci1Ops := wordDev
  sd0Ops := wordDev
  sd1Ops := wordDev
  hlwdOps := wordDev
  ahbOps := wordDev
  diOps := wordDev
  exiOps := wordDev
  miOps := halfDev
  ddrOps := halfDev
  handleNand := fun s _ => (s, [])
  handleAes := fun s _ => (s, [])
  handleSha := fun s _ => (s, [])
  handleMi := fun s _ _ => (s, [])
  stepHlwd := fun h _ => (h, [])

/-- Variant of `unitEnv` whose NAND device reports a completion task on
every write (the spec's example scenario). -/
def spawnEnv : Env Unit :=
  { unitEnv with nandOps :=
      { wordDev with write := fun _ _ _ => ((), some (BusTask.Nand 7)) } }

/-- Variant of `unitEnv` whose NAND completion handler chains one further
zero-delay AES task, whose handler chains nothing. -/
def cascadeEnv : Env Unit :=
  { unitEnv with handleNand := fun s _ => (s, [BusTask.Aes 3]) }

/-- Concrete initial bus over the unit state: empty queue, cycle zero. -/
def unitBus : Bus Unit where
  nand := ()
  aes := ()
  sha := ()
  ehci := ()
  ohci0 := ()
  ohci1 := ()
  sd0 := ()
  sd1 := ()
  hlwd := { top := (), ahb := (), di := (), exi := (), mi := (), ddr := () }
  tasks := []
  cycle := 0
  rom_disabled := false
  mirror_enabled := false

/-- Modelled from the spec: bus states reachable through the public
interface from the initial state (empty queue, cycle counter zero, devices
in any reset state). -/
inductive Reachable (env : Env σ) : Bus σ → Prop where
  | init (b : Bus σ) : b.tasks = [] → b.cycle = 0 → Reachable env b
  | read (b : Bus σ) (dev : IoDevice) (off : Nat) (width : BusWidth) :
      Reachable env b → Reachable env (do_mmio_read env b dev off width).2
  | write (b : Bus σ) (dev : IoDevice) (off : Nat) (msg : BusPacket) :
      Reachable env b → Reachable env (do_mmio_write env b dev off msg).2
  | tick (b : Bus σ) (fuel cpu : Nat) (b' : Bus σ) :
      Reachable env b → step env fuel b cpu = some b' → Reachable env b'

lemma taskDelay_zero (t : BusTask) : taskDelay t = 0 := by
  cases t <;> rfl

lemma schedList_eq (b : Bus σ) (ts : List BusTask) :
    schedList b ts =
      { b with tasks :=
          b.tasks ++ ts.map fun k => { kind := k, target_cycle := b.cycle + taskDelay k } } := by
  induction ts generalizing b with
  | nil => simp [schedList]
  | cons t ts ih =>
      have h1 : schedList b (t :: ts) = schedList (schedTask b t) ts := rfl
      rw [h1, ih]
      simp [schedTask]

lemma applyHandler_fst_tasks (env : Env σ) (b : Bus σ) (k : BusTask) :
    (applyHandler env b k).1.tasks = b.tasks := by
  cases k <;> rfl

lemma applyHandler_fst_cycle (env : Env σ) (b : Bus σ) (k : BusTask) :
    (applyHandler env b k).1.cycle = b.cycle := by
  cases k <;> rfl

lemma runTask_eq (env : Env σ) (b : Bus σ) (k : BusTask) :
    runTask env b k =
      { (applyHandler env b k).1 with tasks :=
          b.tasks ++ (applyHandler env b k).2.map fun t => { kind := t, target_cycle := b.cycle } } := by
  show schedList (applyHandler env b k).1 (applyHandler env b k).2 = _
  rw [schedList_eq, applyHandler_fst_tasks, applyHandler_fst_cycle]
  simp [taskDelay_zero]
  exact (applyHandler_fst_cycle env b k).symm

lemma runTask_cycle (env : Env σ) (b : Bus σ) (k : BusTask) :
    (runTask env b k).cycle = b.cycle := by
  rw [runTask_eq]
  exact applyHandler_fst_cycle env b k

lemma runTask_tasks (env : Env σ) (b : Bus σ) (k : BusTask) :
    (runTask env b k).tasks =
      b.tasks ++ (applyHandler env b k).2.map fun t => { kind := t, target_cycle := b.cycle } := by
  rw [runTask_eq]

/-- Characterization of a terminating drain-loop run whose passed-over
prefix is ineligible: the cycle counter is untouched, and the final queue is
that prefix followed by exactly the ineligible entries of the remaining
suffix, in their original order.  Entries appended by handlers during the
run are scheduled at the current cycle, hence eligible, hence never
survive. -/
lemma drainLoop_char (env : Env σ) :
    ∀ fuel (b : Bus σ) (idx : Nat) (b' : Bus σ),
      drainLoop env fuel b idx = some b' →
      (∀ t ∈ b.tasks.take idx, b.cycle < t.target_cycle) →
      b'.cycle = b.cycle ∧
      b'.tasks = b.tasks.take idx ++
        (b.tasks.drop idx).filter (fun t => decide (b.cycle < t.target_cycle)) := by
  intro fuel
  induction fuel with
  | zero =>
      intro b idx b' h
      exact absurd h (by simp [drainLoop])
  | succ fuel ih =>
      intro b idx b' h hpre
      rw [drainLoop] at h
      by_cases hlen : idx < b.tasks.length
      · rw [dif_pos hlen] at h
        have hdrop : b.tasks.drop idx = b.tasks.get ⟨idx, hlen⟩ :: b.tasks.drop (idx + 1) :=
          (List.getElem_cons_drop b.tasks idx hlen).symm
        by_cases helig : (b.tasks.get ⟨idx, hlen⟩).target_cycle ≤ b.cycle
        · rw [if_pos helig] at h
          have hlentake : (b.tasks.take idx).length = idx := by
            simp [Nat.le_of_lt hlen]
          have htasks1 :
              (runTask env { b with tasks := b.tasks.eraseIdx idx }
                (b.tasks.get ⟨idx, hlen⟩).kind).tasks =
              b.tasks.take idx ++ (b.tasks.drop (idx + 1) ++
                ((applyHandler env { b with tasks := b.tasks.eraseIdx idx }
                  (b.tasks.get ⟨idx, hlen⟩).kind).2.map
                    fun u => { kind := u, target_cycle := b.cycle })) := by
            rw [runTask_tasks]
            rw [show ({ b with tasks := b.tasks.eraseIdx idx } : Bus σ).tasks
                  = b.tasks.eraseIdx idx from rfl]
            rw [show ({ b with tasks := b.tasks.eraseIdx idx } : Bus σ).cycle
                  = b.cycle from rfl]
            rw [List.eraseIdx_eq_take_drop_succ, List.append_assoc]
          have hcyc1 :
              (runTask env { b with tasks := b.tasks.eraseIdx idx }
                (b.tasks.get ⟨idx, hlen⟩).kind).cycle = b.cycle := by
            rw [runTask_cycle]
          obtain ⟨hc, ht'⟩ := ih _ idx b' h (by
            intro u hu
            rw [htasks1] at hu
            rw [List.take_append_of_le_length hlentake.ge] at hu
            rw [List.take_take, Nat.min_self] at hu
            rw [hcyc1]
            exact hpre u hu)
          rw [hcyc1] at hc
          rw [htasks1, hcyc1] at ht'
          refine ⟨hc, ?_⟩
          rw [ht']
          rw [List.take_append_of_le_length hlentake.ge, List.take_take, Nat.min_self]
          rw [List.drop_append_of_le_length hlentake.ge]
          rw [List.drop_eq_nil_of_le hlentake.le, List.nil_append]
          rw [List.filter_append]
          have hnews :
              ((applyHandler env { b with tasks := b.tasks.eraseIdx idx }
                  (b.tasks.get ⟨idx, hlen⟩).kind).2.map
                    fun u => ({ kind := u, target_cycle := b.cycle } : Task)).filter
                (fun t => decide (b.cycle < t.target_cycle)) = [] := by
            simp [List.filter_map, Function.comp_def]
          rw [hnews, List.append_nil]
          rw [hdrop]
          rw [List.filter_cons_of_neg (by
            simp only [decide_eq_true_eq]
            exact Nat.not_lt.mpr helig)]
        · rw [if_neg helig] at h
          have helig' : b.cycle < (b.tasks.get ⟨idx, hlen⟩).target_cycle :=
            Nat.not_le.mp helig
          have htakesucc : b.tasks.take (idx + 1)
              = b.tasks.take idx ++ [b.tasks.get ⟨idx, hlen⟩] := by
            rw [List.take_succ, List.getElem?_eq_getElem hlen]
            rfl
          obtain ⟨hc, ht'⟩ := ih b (idx + 1) b' h (by
            intro u hu
            rw [htakesucc] at hu
            rcases List.mem_append.mp hu with hu1 | hu2
            · exact hpre u hu1
            · rw [List.mem_singleton.mp hu2]
              exact helig')
          refine ⟨hc, ?_⟩
          rw [ht', htakesucc, hdrop]
          rw [List.filter_cons_of_pos (by
            simp only [decide_eq_true_eq]
            exact helig')]
          rw [List.append_assoc, List.singleton_append]
      · rw [dif_neg hlen] at h
        cases h
        refine ⟨rfl, ?_⟩
        rw [List.take_of_length_le (Nat.le_of_not_lt hlen),
            List.drop_eq_nil_of_le (Nat.le_of_not_lt hlen)]
        simp

/-- Projection of the instrumented drain loop onto its bus component: it
computes exactly what `drainLoop` computes. -/
lemma drainLoopTr_fst (env : Env σ) :
    ∀ fuel (b : Bus σ) (idx : Nat),
      (drainLoopTr env fuel b idx).map Prod.fst = drainLoop env fuel b idx := by
  intro fuel
  induction fuel with
  | zero => intro b idx; rfl
  | succ fuel ih =>
      intro b idx
      rw [drainLoopTr, drainLoop]
      by_cases hlen : idx < b.tasks.length
      · rw [dif_pos hlen, dif_pos hlen]
        by_cases helig : (b.tasks.get ⟨idx, hlen⟩).target_cycle ≤ b.cycle
        · rw [if_pos helig, if_pos helig, ← ih]
          cases hrec : drainLoopTr env fuel
              (runTask env { b with tasks := b.tasks.eraseIdx idx }
                (b.tasks.get ⟨idx, hlen⟩).kind) idx with
          | none => rfl
          | some p => rfl
        · rw [if_neg helig, if_neg helig]
          exact ih b (idx + 1)
      · rw [dif_neg hlen, dif_neg hlen]
        rfl

lemma noSpawn_applyHandler {env : Env σ} (h : noSpawn env) (b : Bus σ) (k : BusTask) :
    (applyHandler env b k).2 = [] := by
  obtain ⟨h1, h2, h3, h4⟩ := h
  cases k <;> simp [applyHandler, h1, h2, h3, h4]

lemma runTask_tasks_noSpawn {env : Env σ} (h : noSpawn env) (b : Bus σ) (k : BusTask) :
    (runTask env b k).tasks = b.tasks := by
  rw [runTask_tasks, noSpawn_applyHandler h]
  simp

/-- Execution order for a non-cascading drain: the executed entries are
exactly the eligible entries of the scanned suffix, in queue order. -/
lemma drainLoopTr_trace {env : Env σ} (hns : noSpawn env) :
    ∀ fuel (b : Bus σ) (idx : Nat) (b' : Bus σ) (tr : List Task),
      drainLoopTr env fuel b idx = some (b', tr) →
      tr = (b.tasks.drop idx).filter (fun t => decide (t.target_cycle ≤ b.cycle)) := by
  intro fuel
  induction fuel with
  | zero =>
      intro b idx b' tr h
      exact absurd h (by simp [drainLoopTr])
  | succ fuel ih =>
      intro b idx b' tr h
      rw [drainLoopTr] at h
      by_cases hlen : idx < b.tasks.length
      · rw [dif_pos hlen] at h
        have hdrop : b.tasks.drop idx = b.tasks.get ⟨idx, hlen⟩ :: b.tasks.drop (idx + 1) :=
          (List.getElem_cons_drop b.tasks idx hlen).symm
        by_cases helig : (b.tasks.get ⟨idx, hlen⟩).target_cycle ≤ b.cycle
        · rw [if_pos helig] at h
          cases hrec : drainLoopTr env fuel
              (runTask env { b with tasks := b.tasks.eraseIdx idx }
                (b.tasks.get ⟨idx, hlen⟩).kind) idx with
          | none => rw [hrec] at h; cases h
          | some p =>
              rw [hrec] at h
              cases h
              have htr := ih _ idx p.1 p.2 (by rw [← hrec])
              have htasks1 :
                  (runTask env { b with tasks := b.tasks.eraseIdx idx }
                    (b.tasks.get ⟨idx, hlen⟩).kind).tasks = b.tasks.eraseIdx idx :=
                runTask_tasks_noSpawn hns _ _
              have hcyc1 :
                  (runTask env { b with tasks := b.tasks.eraseIdx idx }
                    (b.tasks.get ⟨idx, hlen⟩).kind).cycle = b.cycle :=
                runTask_cycle env _ _
              rw [htasks1, hcyc1, List.eraseIdx_eq_take_drop_succ] at htr
              have hlentake : (b.tasks.take idx).length = idx := by
                simp [Nat.le_of_lt hlen]
              rw [List.drop_append_of_le_length hlentake.ge,
                  List.drop_eq_nil_of_le hlentake.le, List.nil_append] at htr
              rw [hdrop, List.filter_cons_of_pos (by
                simp only [decide_eq_true_eq]
                exact helig)]
              rw [htr]
        · rw [if_neg helig] at h
          have htr := ih b (idx + 1) b' tr h
          rw [htr, hdrop, List.filter_cons_of_neg (by
            simp only [decide_eq_true_eq]
            exact helig)]
      · rw [dif_neg hlen] at h
        cases h
        rw [List.drop_eq_nil_of_le (Nat.le_of_not_lt hlen)]
        rfl

lemma schedOpt_frame (b : Bus σ) (t? : Option BusTask) :
    (schedOpt b t?).cycle = b.cycle ∧
    (schedOpt b t?).rom_disabled = b.rom_disabled ∧
    (schedOpt b t?).mirror_enabled = b.mirror_enabled ∧
    ((schedOpt b t?).tasks = b.tasks ∨
      ∃ t, (schedOpt b t?).tasks = b.tasks ++ [{ kind := t, target_cycle := b.cycle }]) := by
  cases t? with
  | none => exact ⟨rfl, rfl, rfl, Or.inl rfl⟩
  | some t =>
      refine ⟨rfl, rfl, rfl, Or.inr ⟨t, ?_⟩⟩
      simp [schedOpt, schedTask, taskDelay_zero]

/-- Read dispatch touches no bus field except the target device's state. -/
lemma do_mmio_read_frame (env : Env σ) (b : Bus σ) (dev : IoDevice) (off : Nat)
    (width : BusWidth) :
    (do_mmio_read env b dev off width).2.tasks = b.tasks ∧
    (do_mmio_read env b dev off width).2.cycle = b.cycle ∧
    (do_mmio_read env b dev off width).2.rom_disabled = b.rom_disabled ∧
    (do_mmio_read env b dev off width).2.mirror_enabled = b.mirror_enabled := by
  cases width <;> cases dev <;> exact ⟨rfl, rfl, rfl, rfl⟩

/-- Write dispatch preserves the cycle counter and the flags, and either
leaves the queue unchanged or appends one task scheduled at the current
cycle. -/
lemma do_mmio_write_frame (env : Env σ) (b : Bus σ) (dev : IoDevice) (off : Nat)
    (msg : BusPacket) :
    (do_mmio_write env b dev off msg).2.cycle = b.cycle ∧
    (do_mmio_write env b dev off msg).2.rom_disabled = b.rom_disabled ∧
    (do_mmio_write env b dev off msg).2.mirror_enabled = b.mirror_enabled ∧
    ((do_mmio_write env b dev off msg).2.tasks = b.tasks ∨
      ∃ t, (do_mmio_write env b dev off msg).2.tasks
            = b.tasks ++ [{ kind := t, target_cycle := b.cycle }]) := by
  cases msg <;> cases dev <;>
    first
      | exact ⟨rfl, rfl, rfl, Or.inl rfl⟩
      | exact schedOpt_frame _ _

lemma stepPre_eq (env : Env σ) (b : Bus σ) (cpu : Nat) :
    stepPre env b cpu =
      { b with
          hlwd := (env.stepHlwd b.hlwd cpu).1,
          tasks := b.tasks ++ (env.stepHlwd b.hlwd cpu).2.map
            fun k => { kind := k, target_cycle := b.cycle } } := by
  show schedList _ _ = _
  rw [schedList_eq]
  simp [taskDelay_zero]

lemma step_elim {env : Env σ} {fuel : Nat} {b : Bus σ} {cpu : Nat} {b' : Bus σ}
    (h : step env fuel b cpu = some b') :
    ∃ b2, (if (stepPre env b cpu).tasks.isEmpty then some (stepPre env b cpu)
            else drain_tasks env fuel (stepPre env b cpu)) = some b2 ∧
      b' = { b2 with cycle := b2.cycle + 1 } := by
  have h' : (match (if (stepPre env b cpu).tasks.isEmpty then some (stepPre env b cpu)
        else drain_tasks env fuel (stepPre env b cpu)) with
      | none => (none : Option (Bus σ))
      | some b2 => some { b2 with cycle := b2.cycle + 1 }) = some b' := h
  cases h2 : (if (stepPre env b cpu).tasks.isEmpty then some (stepPre env b cpu)
      else drain_tasks env fuel (stepPre env b cpu)) with
  | none => rw [h2] at h'; cases h'
  | some b2 =>
      rw [h2] at h'
      cases h'
      exact ⟨b2, rfl, rfl⟩

lemma drain_tasks_char {env : Env σ} {fuel : Nat} {b b' : Bus σ}
    (h : drain_tasks env fuel b = some b') :
    b'.cycle = b.cycle ∧
    b'.tasks = b.tasks.filter fun t => decide (b.cycle < t.target_cycle) := by
  have := drainLoop_char env fuel b 0 b' h (by simp)
  simpa using this

lemma writeDispatch_frame {env : Env σ} {b : Bus σ} {dev : IoDevice} {off : Nat}
    {msg : BusPacket} {b1 : Bus σ} {t? : Option BusTask}
    (h : writeDispatch env b dev off msg = Except.ok (b1, t?)) :
    b1.tasks = b.tasks ∧ b1.cycle = b.cycle ∧
    b1.rom_disabled = b.rom_disabled ∧ b1.mirror_enabled = b.mirror_enabled := by
  cases msg <;> cases dev <;>
    first
      | (injection h with h1
         rw [Prod.mk.injEq] at h1
         obtain ⟨h2, h3⟩ := h1
         subst h2
         exact ⟨rfl, rfl, rfl, rfl⟩)
      | injection h

/-- Queue eligibility invariant: every queued entry's target cycle has
already been reached. -/
def EligibleQ (b : Bus σ) : Prop := ∀ t ∈ b.tasks, t.target_cycle ≤ b.cycle

lemma stepPre_cycle (env : Env σ) (b : Bus σ) (cpu : Nat) :
    (stepPre env b cpu).cycle = b.cycle := by
  rw [stepPre_eq]

lemma stepPre_eligible {env : Env σ} {b : Bus σ} (cpu : Nat) (h : EligibleQ b) :
    EligibleQ (stepPre env b cpu) := by
  intro t ht
  rw [stepPre_eq] at ht
  rw [stepPre_cycle]
  rcases List.mem_append.mp ht with h1 | h1
  · exact h t h1
  · obtain ⟨k, _, rfl⟩ := List.mem_map.mp h1
    exact Nat.le_refl _

lemma step_cycle {env : Env σ} {fuel : Nat} {b : Bus σ} {cpu : Nat} {b' : Bus σ}
    (h : step env fuel b cpu = some b') : b'.cycle = b.cycle + 1 := by
  obtain ⟨b2, h2, rfl⟩ := step_elim h
  by_cases he : (stepPre env b cpu).tasks.isEmpty
  · rw [if_pos he] at h2
    cases h2
    show (stepPre env b cpu).cycle + 1 = b.cycle + 1
    rw [stepPre_cycle]
  · rw [if_neg he] at h2
    have hc := (drain_tasks_char h2).1
    rw [stepPre_cycle] at hc
    show b2.cycle + 1 = b.cycle + 1
    rw [hc]

lemma step_empty_of_eligible {env : Env σ} {fuel : Nat} {b : Bus σ} {cpu : Nat}
    {b' : Bus σ} (hel : EligibleQ b) (h : step env fuel b cpu = some b') :
    b'.tasks = [] := by
  obtain ⟨b2, h2, rfl⟩ := step_elim h
  show b2.tasks = []
  by_cases he : (stepPre env b cpu).tasks.isEmpty
  · rw [if_pos he] at h2
    cases h2
    exact List.isEmpty_iff.mp he
  · rw [if_neg he] at h2
    have ht := (drain_tasks_char h2).2
    rw [ht]
    rw [List.filter_eq_nil_iff]
    intro t hin
    simp only [decide_eq_true_eq, Nat.not_lt]
    exact stepPre_eligible cpu hel t hin

/-- Every reachable bus state satisfies the eligibility invariant. -/
lemma reachable_eligible {env : Env σ} {b : Bus σ} (h : Reachable env b) :
    EligibleQ b := by
  induction h with
  | init b h1 _ =>
      intro t ht
      rw [h1] at ht
      cases ht
  | read b dev off width _ ih =>
      obtain ⟨ht', hc', _, _⟩ := do_mmio_read_frame env b dev off width
      intro t ht
      rw [ht'] at ht
      rw [hc']
      exact ih t ht
  | write b dev off msg _ ih =>
      obtain ⟨hc', _, _, htasks⟩ := do_mmio_write_frame env b dev off msg
      intro t ht
      rw [hc']
      rcases htasks with h1 | ⟨u, h1⟩
      · rw [h1] at ht
        exact ih t ht
      · rw [h1] at ht
        rcases List.mem_append.mp ht with h2 | h2
        · exact ih t h2
        · rw [List.mem_singleton.mp h2]
  | tick b fuel cpu b' _ hstep ih =>
      intro t ht
      rw [step_empty_of_eligible ih hstep] at ht
      cases ht

/-- One terminating pass of the instrumented loop on an empty queue. -/
lemma drainLoopTr_nil (env : Env σ) (fuel : Nat) {b : Bus σ} (hb : b.tasks = []) :
    drainLoopTr env (fuel + 1) b 0 = some (b, []) := by
  rw [drainLoopTr, dif_neg (by rw [hb]; simp)]

/-- One executing iteration of the instrumented loop at the queue head. -/
lemma drainLoopTr_step (env : Env σ) (fuel : Nat) {b : Bus σ} (k : BusTask)
    (tcv : Nat) (rest : List Task) {b' : Bus σ} {tr : List Task}
    (hb : b.tasks = { kind := k, target_cycle := tcv } :: rest)
    (helig : tcv ≤ b.cycle)
    (hrec : drainLoopTr env fuel (runTask env { b with tasks := rest } k) 0
              = some (b', tr)) :
    drainLoopTr env (fuel + 1) b 0
      = some (b', { kind := k, target_cycle := tcv } :: tr) := by
  have h0 : 0 < b.tasks.length := by rw [hb]; simp
  have hget : b.tasks.get ⟨0, h0⟩ = { kind := k, target_cycle := tcv } := by
    have he := List.get_of_eq hb ⟨0, h0⟩
    rw [he]
    rfl
  have herase : b.tasks.eraseIdx 0 = rest := by
    rw [hb]
    rfl
  rw [drainLoopTr, dif_pos h0, hget, herase, if_pos helig, hrec]

/-- C1: for every defined (width, device) pair — width `W` with each of
Nand, Aes, Sha, Ehci, Ohci0, Ohci1, Sdhc0, Sdhc1, Hlwd, Ahb, Di, Exi, and
width `H` with each of Mi and Ddr — `do_mmio_read` forwards exactly one read
call to that device's model with the given offset and returns that model's
result, and `do_mmio_write` with a matching-tagged value forwards exactly
one write call to that device's model with the given offset and payload; no
other device model is invoked (every other bus field is unchanged). -/
theorem C1_defined_dispatch_routes_to_owner :
    ∀ (σ : Type) (env : Env σ) (b : Bus σ) (off v : Nat),
      (do_mmio_read env b IoDevice.Nand off BusWidth.W
        = (Except.ok (env.nandOps.read b.nand off).1,
           { b with nand := (env.nandOps.read b.nand off).2 })) ∧
      (do_mmio_read env b IoDevice.Aes off BusWidth.W
        = (Except.ok (env.aesOps.read b.aes off).1,
           { b with aes := (env.aesOps.read b.aes off).2 })) ∧
      (do_mmio_read env b IoDevice.Sha off BusWidth.W
        = (Except.ok (env.shaOps.read b.sha off).1,
           { b with sha := (env.shaOps.read b.sha off).2 })) ∧
      (do_mmio_read env b IoDevice.Ehci off BusWidth.W
        = (Except.ok (env.ehciOps.read b.ehci off).1,
           { b with ehci := (env.ehciOps.read b.ehci off).2 })) ∧
      (do_mmio_read env b IoDevice.Ohci0 off BusWidth.W
        = (Except.ok (env.ohci0Ops.read b.ohci0 off).1,
           { b with ohci0 := (env.ohci0Ops.read b.ohci0 off).2 })) ∧
      (do_mmio_read env b IoDevice.Ohci1 off BusWidth.W
        = (Except.ok (env.ohci1Ops.read b.ohci1 off).1,
           { b with ohci1 := (env.ohci1Ops.read b.ohci1 off).2 })) ∧
      (do_mmio_read env b IoDevice.Sdhc0 off BusWidth.W
        = (Except.ok (env.sd0Ops.read b.sd0 off).1,
           { b with sd0 := (env.sd0Ops.read b.sd0 off).2 })) ∧
      (do_mmio_read env b IoDevice.Sdhc1 off BusWidth.W
        = (Except.ok (env.sd1Ops.read b.sd1 off).1,
           { b with sd1 := (env.sd1Ops.read b.sd1 off).2 })) ∧
      (do_mmio_read env b IoDevice.Hlwd off BusWidth.W
        = (Except.ok (env.hlwdOps.read b.hlwd.top off).1,
           { b with hlwd := { b.hlwd with top := (env.hlwdOps.read b.hlwd.top off).2 } })) ∧
      (do_mmio_read env b IoDevice.Ahb off BusWidth.W
        = (Except.ok (env.ahbOps.read b.hlwd.ahb off).1,
           { b with hlwd := { b.hlwd with ahb := (env.ahbOps.read b.hlwd.ahb off).2 } })) ∧
      (do_mmio_read env b IoDevice.Di off BusWidth.W
        = (Except.ok (env.diOps.read b.hlwd.di off).1,
           { b with hlwd := { b.hlwd with di := (env.diOps.read b.hlwd.di off).2 } })) ∧
      (do_mmio_read env b IoDevice.Exi off BusWidth.W
        = (Except.ok (env.exiOps.read b.hlwd.exi off).1,
           { b with hlwd := { b.hlwd with exi := (env.exiOps.read b.hlwd.exi off).2 } })) ∧
      (do_mmio_read env b IoDevice.Mi off BusWidth.H
        = (Except.ok (env.miOps.read b.hlwd.mi off).1,
           { b with hlwd := { b.hlwd with mi := (env.miOps.read b.hlwd.mi off).2 } })) ∧
      (do_mmio_read env b IoDevice.Ddr off BusWidth.H
        = (Except.ok (env.ddrOps.read b.hlwd.ddr off).1,
           { b with hlwd := { b.hlwd with ddr := (env.ddrOps.read b.hlwd.ddr off).2 } })) ∧
      (do_mmio_write env b IoDevice.Nand off (BusPacket.Word v)
        = (Except.ok (),
           schedOpt { b with nand := (env.nandOps.write b.nand off v).1 }
             (env.nandOps.write b.nand off v).2)) ∧
      (do_mmio_write env b IoDevice.Aes off (BusPacket.Word v)
        = (Except.ok (),
           schedOpt { b with aes := (env.aesOps.write b.aes off v).1 }
             (env.aesOps.write b.aes off v).2)) ∧
      (do_mmio_write env b IoDevice.Sha off (BusPacket.Word v)
        = (Except.ok (),
           schedOpt { b with sha := (env.shaOps.write b.sha off v).1 }
             (env.shaOps.write b.sha off v).2)) ∧
      (do_mmio_write env b IoDevice.Ehci off (BusPacket.Word v)
        = (Except.ok (),
           schedOpt { b with ehci := (env.ehciOps.write b.ehci off v).1 }
             (env.ehciOps.write b.ehci off v).2)) ∧
      (do_mmio_write env b IoDevice.Ohci0 off (BusPacket.Word v)
        = (Except.ok (),
           schedOpt { b with ohci0 := (env.ohci0Ops.write b.ohci0 off v).1 }
             (env.ohci0Ops.write b.ohci0 off v).2)) ∧
      (do_mmio_write env b IoDevice.Ohci1 off (BusPacket.Word v)
        = (Except.ok (),
           schedOpt { b with ohci1 := (env.ohci1Ops.write b.ohci1 off v).1 }
             (env.ohci1Ops.write b.ohci1 off v).2)) ∧
      (do_mmio_write env b IoDevice.Sdhc0 off (BusPacket.Word v)
        = (Except.ok (),
           schedOpt { b with sd0 := (env.sd0Ops.write b.sd0 off v).1 }
             (env.sd0Ops.write b.sd0 off v).2)) ∧
      (do_mmio_write env b IoDevice.Sdhc1 off (BusPacket.Word v)
        = (Except.ok (),
           schedOpt { b with sd1 := (env.sd1Ops.write b.sd1 off v).1 }
             (env.sd1Ops.write b.sd1 off v).2)) ∧
      (do_mmio_write env b IoDevice.Hlwd off (BusPacket.Word v)
        = (Except.ok (),
           schedOpt { b with hlwd := { b.hlwd with top := (env.hlwdOps.write b.hlwd.top off v).1 } }
             (env.hlwdOps.write b.hlwd.top off v).2)) ∧
      (do_mmio_write env b IoDevice.Ahb off (BusPacket.Word v)
        = (Except.ok (),
           schedOpt { b with hlwd := { b.hlwd with ahb := (env.ahbOps.write b.hlwd.ahb off v).1 } }
             (env.ahbOps.write b.hlwd.ahb off v).2)) ∧
      (do_mmio_write env b IoDevice.Exi off (BusPacket.Word v)
        = (Except.ok (),
           schedOpt { b with hlwd := { b.hlwd with exi := (env.exiOps.write b.hlwd.exi off v).1 } }
             (env.exiOps.write b.hlwd.exi off v).2)) ∧
      (do_mmio_write env b IoDevice.Di off (BusPacket.Word v)
        = (Except.ok (),
           schedOpt { b with hlwd := { b.hlwd with di := (env.diOps.write b.hlwd.di off v).1 } }
             (env.diOps.write b.hlwd.di off v).2)) ∧
      (do_mmio_write env b IoDevice.Mi off (BusPacket.Half v)
        = (Except.ok (),
           schedOpt { b with hlwd := { b.hlwd with mi := (env.miOps.write b.hlwd.mi off v).1 } }
             (env.miOps.write b.hlwd.mi off v).2)) ∧
      (do_mmio_write env b IoDevice.Ddr off (BusPacket.Half v)
        = (Except.ok (),
           schedOpt { b with hlwd := { b.hlwd with ddr := (env.ddrOps.write b.hlwd.ddr off v).1 } }
             (env.ddrOps.write b.hlwd.ddr off v).2)) := by
  intro σ env b off v
  exact ⟨rfl, rfl, rfl, rfl, rfl, rfl, rfl, rfl, rfl, rfl, rfl, rfl, rfl, rfl,
         rfl, rfl, rfl, rfl, rfl, rfl, rfl, rfl, rfl, rfl, rfl, rfl, rfl, rfl⟩

/-- C2: for every (width, device) pair not in the defined dispatch set on
read, and every (value tag, device) pair not in the defined set on write,
dispatch aborts fatally with a diagnostic carrying the width (or the tagged
value), the device identifier, and the offset, and the bus — device models,
task queue, everything — is returned unchanged on the error path. -/
theorem C2_undefined_dispatch_fatal_no_mutation :
    ∀ (σ : Type) (env : Env σ) (b : Bus σ) (dev : IoDevice) (off : Nat),
      (∀ width : BusWidth, definedRead width dev = false →
        do_mmio_read env b dev off width
          = (Except.error (Fatal.unsupportedRead width dev off), b)) ∧
      (∀ msg : BusPacket, definedWrite msg dev = false →
        do_mmio_write env b dev off msg
          = (Except.error (Fatal.unsupportedWrite msg dev off), b)) := by
  intro σ env b dev off
  constructor
  · intro width h
    cases width <;> cases dev <;>
      first
        | rfl
        | exact absurd h (by simp [definedRead])
  · intro msg h
    cases msg <;> cases dev <;>
      first
        | rfl
        | exact absurd h (by simp [definedWrite])

/-- Witness for C2 at a concrete undefined pair: a byte-wide NAND read over
the unit-state environment aborts with the diagnostic and leaves the bus
unchanged. -/
theorem C2_undefined_dispatch_fatal_no_mutation_witness :
    definedRead BusWidth.B IoDevice.Nand = false ∧
    do_mmio_read unitEnv unitBus IoDevice.Nand 3 BusWidth.B
      = (Except.error (Fatal.unsupportedRead BusWidth.B IoDevice.Nand 3), unitBus) :=
  ⟨rfl, (C2_undefined_dispatch_fatal_no_mutation Unit unitEnv unitBus IoDevice.Nand 3).1
    BusWidth.B rfl⟩

/-- C3: on a dispatched write where the device reports a task, the bus
computes the per-task-kind delay (zero for every kind) and appends the task
at the end of the queue with target cycle equal to the cycle at creation;
the task is not returned to the caller.  A write where the device reports
nothing leaves the task queue unchanged. -/
theorem C3_write_schedules_reported_task :
    ∀ (σ : Type) (env : Env σ) (b b1 : Bus σ) (dev : IoDevice) (off : Nat)
      (msg : BusPacket),
      (∀ t : BusTask, taskDelay t = 0) ∧
      (∀ t : BusTask, writeDispatch env b dev off msg = Except.ok (b1, some t) →
        do_mmio_write env b dev off msg
          = (Except.ok (),
             { b1 with tasks := b1.tasks
                 ++ [{ kind := t, target_cycle := b.cycle + taskDelay t }] })
        ∧ b.cycle + taskDelay t = b.cycle) ∧
      (writeDispatch env b dev off msg = Except.ok (b1, none) →
        do_mmio_write env b dev off msg = (Except.ok (), b1) ∧ b1.tasks = b.tasks) := by
  intro σ env b b1 dev off msg
  refine ⟨taskDelay_zero, fun t h => ?_, fun h => ?_⟩
  · have hcy := (writeDispatch_frame h).2.1
    constructor
    · unfold do_mmio_write
      rw [h]
      show (Except.ok (), schedTask b1 t) = _
      rw [show schedTask b1 t
            = { b1 with tasks := b1.tasks
                ++ [{ kind := t, target_cycle := b1.cycle + taskDelay t }] } from rfl]
      rw [hcy]
    · simp [taskDelay_zero]
  · refine ⟨?_, (writeDispatch_frame h).1⟩
    unfold do_mmio_write
    rw [h]
    rfl

/-- Witness for C3: a NAND write on an environment whose NAND device reports
a completion task appends that task at the tail with zero delay. -/
theorem C3_write_schedules_reported_task_witness :
    writeDispatch spawnEnv unitBus IoDevice.Nand 0 (BusPacket.Word 3735928559)
      = Except.ok (unitBus, some (BusTask.Nand 7)) ∧
    (do_mmio_write spawnEnv unitBus IoDevice.Nand 0 (BusPacket.Word 3735928559)
      = (Except.ok (),
         { unitBus with tasks := unitBus.tasks
             ++ [{ kind := BusTask.Nand 7,
                   target_cycle := unitBus.cycle + taskDelay (BusTask.Nand 7) }] })
      ∧ unitBus.cycle + taskDelay (BusTask.Nand 7) = unitBus.cycle) :=
  ⟨rfl,
    (C3_write_schedules_reported_task Unit spawnEnv unitBus unitBus IoDevice.Nand 0
      (BusPacket.Word 3735928559)).2.1 (BusTask.Nand 7) rfl⟩

lemma runTask_rom_disabled (env : Env σ) (b : Bus σ) (k : BusTask) :
    (runTask env b k).rom_disabled = (applyHandler env b k).1.rom_disabled := by
  rw [runTask_eq]

lemma runTask_mirror_enabled (env : Env σ) (b : Bus σ) (k : BusTask) :
    (runTask env b k).mirror_enabled = (applyHandler env b k).1.mirror_enabled := by
  rw [runTask_eq]

/-- C4: every `step` call runs the bridge-chip time-driven update first,
then drains the queue against the not-yet-incremented cycle counter, then
increments the counter by exactly one as the last action; tasks the
time-driven update enqueued carry the current (pre-increment) cycle as
their target, so they are eligible in this same step's drain. -/
theorem C4_step_order_and_cycle :
    ∀ (σ : Type) (env : Env σ) (fuel : Nat) (b : Bus σ) (cpu : Nat) (b' : Bus σ),
      step env fuel b cpu = some b' →
      b'.cycle = b.cycle + 1 ∧
      (stepPre env b cpu).cycle = b.cycle ∧
      (stepPre env b cpu).tasks = b.tasks ++ (env.stepHlwd b.hlwd cpu).2.map
        (fun k => { kind := k, target_cycle := b.cycle }) ∧
      ∃ b2, (if (stepPre env b cpu).tasks.isEmpty then some (stepPre env b cpu)
              else drain_tasks env fuel (stepPre env b cpu)) = some b2 ∧
        b' = { b2 with cycle := b2.cycle + 1 } := by
  intro σ env fuel b cpu b' h
  exact ⟨step_cycle h, stepPre_cycle env b cpu, by rw [stepPre_eq], step_elim h⟩

/-- Witness for C4 on a concrete quiescent bus: one `step` increments the
cycle from 0 to 1. -/
theorem C4_step_order_and_cycle_witness :
    step unitEnv 1 unitBus 0 = some { unitBus with cycle := 1 } ∧
    (({ unitBus with cycle := 1 } : Bus Unit).cycle = unitBus.cycle + 1 ∧
     (stepPre unitEnv unitBus 0).cycle = unitBus.cycle ∧
     (stepPre unitEnv unitBus 0).tasks = unitBus.tasks ++ (unitEnv.stepHlwd unitBus.hlwd 0).2.map
        (fun k => { kind := k, target_cycle := unitBus.cycle }) ∧
     ∃ b2, (if (stepPre unitEnv unitBus 0).tasks.isEmpty then some (stepPre unitEnv unitBus 0)
             else drain_tasks unitEnv 1 (stepPre unitEnv unitBus 0)) = some b2 ∧
       ({ unitBus with cycle := 1 } : Bus Unit) = { b2 with cycle := b2.cycle + 1 }) :=
  ⟨rfl, C4_step_order_and_cycle Unit unitEnv 1 unitBus 0 { unitBus with cycle := 1 } rfl⟩

/-- C5: during one terminating drain call the never-eligible entries — and
only they — remain, in their original relative order; and (for handlers that
do not chain further work) the executed entries are exactly the eligible
ones, fired in queue-scan order, never sorted by target cycle. -/
theorem C5_drain_order_discipline :
    ∀ (σ : Type) (env : Env σ) (fuel : Nat) (b : Bus σ),
      (∀ b', drain_tasks env fuel b = some b' →
        b'.cycle = b.cycle ∧
        b'.tasks = b.tasks.filter fun t => decide (b.cycle < t.target_cycle)) ∧
      (noSpawn env → ∀ b' tr, drainLoopTr env fuel b 0 = some (b', tr) →
        tr = b.tasks.filter fun t => decide (t.target_cycle ≤ b.cycle)) := by
  intro σ env fuel b
  constructor
  · intro b' h
    exact drain_tasks_char h
  · intro hns b' tr h
    have := drainLoopTr_trace hns fuel b 0 b' tr h
    simpa using this

/-- Concrete bus with one eligible and one not-yet-eligible entry. -/
def twoTaskBus : Bus Unit :=
  { unitBus with tasks := [{ kind := BusTask.Nand 1, target_cycle := 0 },
                           { kind := BusTask.Aes 2, target_cycle := 5 }] }

/-- Witness for C5: draining `twoTaskBus` fires only the eligible NAND entry
and leaves the later AES entry in place. -/
theorem C5_drain_order_discipline_witness :
    noSpawn unitEnv ∧
    drain_tasks unitEnv 3 twoTaskBus
      = some { twoTaskBus with tasks := [{ kind := BusTask.Aes 2, target_cycle := 5 }] } ∧
    (({ twoTaskBus with tasks := [{ kind := BusTask.Aes 2, target_cycle := 5 }] } : Bus Unit).cycle
        = twoTaskBus.cycle ∧
     ({ twoTaskBus with tasks := [{ kind := BusTask.Aes 2, target_cycle := 5 }] } : Bus Unit).tasks
        = twoTaskBus.tasks.filter fun t => decide (twoTaskBus.cycle < t.target_cycle)) ∧
    drainLoopTr unitEnv 3 twoTaskBus 0
      = some ({ twoTaskBus with tasks := [{ kind := BusTask.Aes 2, target_cycle := 5 }] },
              [{ kind := BusTask.Nand 1, target_cycle := 0 }]) ∧
    [{ kind := BusTask.Nand 1, target_cycle := 0 }]
      = twoTaskBus.tasks.filter fun t => decide (t.target_cycle ≤ twoTaskBus.cycle) := by
  have hns : noSpawn unitEnv :=
    ⟨fun _ _ => rfl, fun _ _ => rfl, fun _ _ => rfl, fun _ _ _ => rfl⟩
  have hdr : drain_tasks unitEnv 3 twoTaskBus
      = some { twoTaskBus with tasks := [{ kind := BusTask.Aes 2, target_cycle := 5 }] } := by
    decide
  have htr : drainLoopTr unitEnv 3 twoTaskBus 0
      = some ({ twoTaskBus with tasks := [{ kind := BusTask.Aes 2, target_cycle := 5 }] },
              [{ kind := BusTask.Nand 1, target_cycle := 0 }]) := by
    decide
  exact ⟨hns, hdr, (C5_drain_order_discipline Unit unitEnv 3 twoTaskBus).1 _ hdr, htr,
    (C5_drain_order_discipline Unit unitEnv 3 twoTaskBus).2 hns _ _ htr⟩

/-- C8: executing a `SetRomDisabled` or `SetMirrorEnabled` task assigns the
flag directly with no handler indirection and no other side effect (the
result is exactly the bus with that one field replaced); conversely the two
flags are never written by read/write dispatch, by the time-driven update,
or by any other task kind. -/
theorem C8_flag_tasks_direct_assignment :
    ∀ (σ : Type) (env : Env σ) (b : Bus σ) (x : Bool) (dev : IoDevice)
      (off cpu xp kp dp : Nat) (width : BusWidth) (msg : BusPacket),
      (runTask env b (BusTask.SetRomDisabled x) = { b with rom_disabled := x }) ∧
      (runTask env b (BusTask.SetMirrorEnabled x) = { b with mirror_enabled := x }) ∧
      ((do_mmio_read env b dev off width).2.rom_disabled = b.rom_disabled) ∧
      ((do_mmio_read env b dev off width).2.mirror_enabled = b.mirror_enabled) ∧
      ((do_mmio_write env b dev off msg).2.rom_disabled = b.rom_disabled) ∧
      ((do_mmio_write env b dev off msg).2.mirror_enabled = b.mirror_enabled) ∧
      ((stepPre env b cpu).rom_disabled = b.rom_disabled) ∧
      ((stepPre env b cpu).mirror_enabled = b.mirror_enabled) ∧
      ((runTask env b (BusTask.Nand xp)).rom_disabled = b.rom_disabled) ∧
      ((runTask env b (BusTask.Nand xp)).mirror_enabled = b.mirror_enabled) ∧
      ((runTask env b (BusTask.Aes xp)).rom_disabled = b.rom_disabled) ∧
      ((runTask env b (BusTask.Aes xp)).mirror_enabled = b.mirror_enabled) ∧
      ((runTask env b (BusTask.Sha xp)).rom_disabled = b.rom_disabled) ∧
      ((runTask env b (BusTask.Sha xp)).mirror_enabled = b.mirror_enabled) ∧
      ((runTask env b (BusTask.Mi kp dp)).rom_disabled = b.rom_disabled) ∧
      ((runTask env b (BusTask.Mi kp dp)).mirror_enabled = b.mirror_enabled) := by
  intro σ env b x dev off cpu xp kp dp width msg
  refine ⟨rfl, rfl,
    (do_mmio_read_frame env b dev off width).2.2.1,
    (do_mmio_read_frame env b dev off width).2.2.2,
    (do_mmio_write_frame env b dev off msg).2.1,
    (do_mmio_write_frame env b dev off msg).2.2.1,
    by rw [stepPre_eq], by rw [stepPre_eq],
    by rw [runTask_rom_disabled]; rfl, by rw [runTask_mirror_enabled]; rfl,
    by rw [runTask_rom_disabled]; rfl, by rw [runTask_mirror_enabled]; rfl,
    by rw [runTask_rom_disabled]; rfl, by rw [runTask_mirror_enabled]; rfl,
    by rw [runTask_rom_disabled]; rfl, by rw [runTask_mirror_enabled]; rfl⟩

/-- C9: the tag of every dispatched access value agrees with the access
width: the write table binds each payload tag jointly with the device's
width (it coincides with the read table through `widthOf`), and a defined
read returns a packet tagged with the dispatched width whenever the device
models honour the §4.1 width contract. -/
theorem C9_width_tag_agreement :
    ∀ (σ : Type) (env : Env σ) (b : Bus σ) (off : Nat),
      (∀ (msg : BusPacket) (dev : IoDevice),
        definedWrite msg dev = definedRead (widthOf msg) dev) ∧
      (WidthContract env →
        ∀ (width : BusWidth) (dev : IoDevice), definedRead width dev = true →
          ∃ pkt b2, do_mmio_read env b dev off width = (Except.ok pkt, b2)
            ∧ widthOf pkt = width) := by
  intro σ env b off
  constructor
  · intro msg dev
    cases msg <;> cases dev <;> rfl
  · intro hwc width dev hdef
    obtain ⟨c1, c2, c3, c4, c5, c6, c7, c8, c9, c10, c11, c12, c13, c14⟩ := hwc
    cases width <;> cases dev <;>
      first
        | exact Bool.noConfusion hdef
        | exact ⟨_, _, rfl, c1 _ _⟩
        | exact ⟨_, _, rfl, c2 _ _⟩
        | exact ⟨_, _, rfl, c3 _ _⟩
        | exact ⟨_, _, rfl, c4 _ _⟩
        | exact ⟨_, _, rfl, c5 _ _⟩
        | exact ⟨_, _, rfl, c6 _ _⟩
        | exact ⟨_, _, rfl, c7 _ _⟩
        | exact ⟨_, _, rfl, c8 _ _⟩
        | exact ⟨_, _, rfl, c9 _ _⟩
        | exact ⟨_, _, rfl, c10 _ _⟩
        | exact ⟨_, _, rfl, c11 _ _⟩
        | exact ⟨_, _, rfl, c12 _ _⟩
        | exact ⟨_, _, rfl, c13 _ _⟩
        | exact ⟨_, _, rfl, c14 _ _⟩

/-- Witness for C9: the unit-state environment honours the width contract
and a word-wide NAND read returns a word-tagged packet. -/
theorem C9_width_tag_agreement_witness :
    WidthContract unitEnv ∧ definedRead BusWidth.W IoDevice.Nand = true ∧
    (∃ pkt b2, do_mmio_read unitEnv unitBus IoDevice.Nand 0 BusWidth.W
        = (Except.ok pkt, b2) ∧ widthOf pkt = BusWidth.W) := by
  have hwc : WidthContract unitEnv :=
    ⟨fun _ _ => rfl, fun _ _ => rfl, fun _ _ => rfl, fun _ _ => rfl,
     fun _ _ => rfl, fun _ _ => rfl, fun _ _ => rfl, fun _ _ => rfl,
     fun _ _ => rfl, fun _ _ => rfl, fun _ _ => rfl, fun _ _ => rfl,
     fun _ _ => rfl, fun _ _ => rfl⟩
  exact ⟨hwc, rfl,
    (C9_width_tag_agreement Unit unitEnv unitBus 0).2 hwc BusWidth.W IoDevice.Nand rfl⟩

/-- C10: in every bus state reachable through the public interface every
queued entry is already eligible (its target cycle has been reached), so any
terminating `step` call returns with the task queue empty — the drain
cursor's pass-over branch has nothing to act on. -/
theorem C10_reachable_queue_eligible :
    ∀ (σ : Type) (env : Env σ) (b : Bus σ),
      Reachable env b →
      (∀ t ∈ b.tasks, t.target_cycle ≤ b.cycle) ∧
      (∀ fuel cpu b', step env fuel b cpu = some b' → b'.tasks = []) := by
  intro σ env b h
  exact ⟨reachable_eligible h,
    fun fuel cpu b' hs => step_empty_of_eligible (reachable_eligible h) hs⟩

/-- Witness for C10 at the initial bus: reachable, trivially eligible, and
one `step` leaves the queue empty. -/
theorem C10_reachable_queue_eligible_witness :
    Reachable unitEnv unitBus ∧
    ((∀ t ∈ unitBus.tasks, t.target_cycle ≤ unitBus.cycle) ∧
     (∀ fuel cpu b', step unitEnv fuel unitBus cpu = some b' → b'.tasks = [])) := by
  have hr : Reachable unitEnv unitBus := Reachable.init unitBus rfl rfl
  exact ⟨hr, C10_reachable_queue_eligible Unit unitEnv unitBus hr⟩

/-- C6: if executing the eligible head task appends a new zero-delay task
at the tail, that task is also executed before the same drain call returns,
after the entry that spawned it; the trace records both, in enqueue order,
and the queue ends empty. -/
theorem C6_same_step_cascading :
    ∀ (σ : Type) (env : Env σ) (fuel : Nat) (b b1 b2 : Bus σ) (k1 k2 : BusTask)
      (tc : Nat),
      b.tasks = [{ kind := k1, target_cycle := tc }] →
      tc ≤ b.cycle →
      applyHandler env { b with tasks := [] } k1 = (b1, [k2]) →
      applyHandler env { b1 with tasks := [] } k2 = (b2, []) →
      drainLoopTr env (fuel + 3) b 0
        = some (b2, [{ kind := k1, target_cycle := tc },
                     { kind := k2, target_cycle := b.cycle }]) ∧
      drain_tasks env (fuel + 3) b = some b2 ∧
      b2.tasks = [] := by
  intro σ env fuel b b1 b2 k1 k2 tc hb htc hA hB
  have hb1t : b1.tasks = [] := by
    have h := applyHandler_fst_tasks env { b with tasks := [] } k1
    rw [hA] at h
    exact h
  have hb1c : b1.cycle = b.cycle := by
    have h := applyHandler_fst_cycle env { b with tasks := [] } k1
    rw [hA] at h
    exact h
  have hb2t : b2.tasks = [] := by
    have h := applyHandler_fst_tasks env { b1 with tasks := [] } k2
    rw [hB] at h
    exact h
  have e1 : runTask env { b with tasks := [] } k1
      = { b1 with tasks := [{ kind := k2, target_cycle := b.cycle }] } := by
    show schedList (applyHandler env { b with tasks := [] } k1).1
        (applyHandler env { b with tasks := [] } k1).2 = _
    rw [hA, schedList_eq, hb1t, hb1c]
    simp [taskDelay_zero]
  have e2 : runTask env { b1 with tasks := [] } k2 = b2 := by
    show schedList (applyHandler env { b1 with tasks := [] } k2).1
        (applyHandler env { b1 with tasks := [] } k2).2 = _
    rw [hB]
    rfl
  have h2 : drainLoopTr env (fuel + 2)
      { b1 with tasks := [{ kind := k2, target_cycle := b.cycle }] } 0
      = some (b2, [{ kind := k2, target_cycle := b.cycle }]) := by
    apply drainLoopTr_step env (fuel + 1) k2 b.cycle []
    · rfl
    · exact hb1c.ge
    · show drainLoopTr env (fuel + 1) (runTask env { b1 with tasks := [] } k2) 0
        = some (b2, [])
      rw [e2]
      exact drainLoopTr_nil env fuel hb2t
  have h1 : drainLoopTr env (fuel + 3) b 0
      = some (b2, [{ kind := k1, target_cycle := tc },
                   { kind := k2, target_cycle := b.cycle }]) := by
    apply drainLoopTr_step env (fuel + 2) k1 tc [] hb htc
    show drainLoopTr env (fuel + 2) (runTask env { b with tasks := [] } k1) 0
      = some (b2, [{ kind := k2, target_cycle := b.cycle }])
    rw [e1]
    exact h2
  refine ⟨h1, ?_, hb2t⟩
  show drainLoop env (fuel + 3) b 0 = some b2
  rw [← drainLoopTr_fst, h1]
  rfl

/-- Concrete bus whose queue holds one eligible NAND completion task. -/
def oneNandBus : Bus Unit :=
  { unitBus with tasks := [{ kind := BusTask.Nand 1, target_cycle := 0 }] }

/-- Witness for C6: under `cascadeEnv` the NAND completion handler chains
one AES task, and one drain call executes both in enqueue order. -/
theorem C6_same_step_cascading_witness :
    oneNandBus.tasks = [{ kind := BusTask.Nand 1, target_cycle := 0 }] ∧
    0 ≤ oneNandBus.cycle ∧
    applyHandler cascadeEnv { oneNandBus with tasks := [] } (BusTask.Nand 1)
      = (unitBus, [BusTask.Aes 3]) ∧
    applyHandler cascadeEnv { unitBus with tasks := [] } (BusTask.Aes 3)
      = (unitBus, []) ∧
    (drainLoopTr cascadeEnv (0 + 3) oneNandBus 0
        = some (unitBus, [{ kind := BusTask.Nand 1, target_cycle := 0 },
                          { kind := BusTask.Aes 3, target_cycle := oneNandBus.cycle }]) ∧
     drain_tasks cascadeEnv (0 + 3) oneNandBus = some unitBus ∧
     unitBus.tasks = []) :=
  ⟨rfl, Nat.zero_le _, rfl, rfl,
    C6_same_step_cascading Unit cascadeEnv 0 oneNandBus unitBus unitBus
      (BusTask.Nand 1) (BusTask.Aes 3) 0 rfl (Nat.zero_le _) rfl rfl⟩

/-- C7: from any bus state whose queue holds exactly one task with target
cycle equal to the current cycle, when the time-driven update enqueues
nothing and the task's handler chains nothing, one `step` call executes the
task's kind-specific handling exactly once (the trace is that single entry)
and returns with the queue empty and the cycle advanced by one. -/
theorem C7_zero_delay_task_one_step :
    ∀ (σ : Type) (env : Env σ) (fuel : Nat) (b : Bus σ) (cpu : Nat)
      (hg : HlwdGroup σ) (k : BusTask) (b1 : Bus σ),
      b.tasks = [{ kind := k, target_cycle := b.cycle }] →
      env.stepHlwd b.hlwd cpu = (hg, []) →
      applyHandler env { b with hlwd := hg, tasks := [] } k = (b1, []) →
      drainLoopTr env (fuel + 2) (stepPre env b cpu) 0
        = some (b1, [{ kind := k, target_cycle := b.cycle }]) ∧
      step env (fuel + 2) b cpu = some { b1 with cycle := b1.cycle + 1 } ∧
      b1.tasks = [] ∧ b1.cycle = b.cycle := by
  intro σ env fuel b cpu hg k b1 hb hTick hA
  have hpre : stepPre env b cpu = { b with hlwd := hg } := by
    show schedList { b with hlwd := (env.stepHlwd b.hlwd cpu).1 }
        (env.stepHlwd b.hlwd cpu).2 = _
    rw [hTick]
    rfl
  have hb1t : b1.tasks = [] := by
    have h := applyHandler_fst_tasks env { b with hlwd := hg, tasks := [] } k
    rw [hA] at h
    exact h
  have hb1c : b1.cycle = b.cycle := by
    have h := applyHandler_fst_cycle env { b with hlwd := hg, tasks := [] } k
    rw [hA] at h
    exact h
  have e1 : runTask env { b with hlwd := hg, tasks := [] } k = b1 := by
    show schedList (applyHandler env { b with hlwd := hg, tasks := [] } k).1
        (applyHandler env { b with hlwd := hg, tasks := [] } k).2 = _
    rw [hA]
    rfl
  have hTr : drainLoopTr env (fuel + 2) { b with hlwd := hg } 0
      = some (b1, [{ kind := k, target_cycle := b.cycle }]) := by
    apply drainLoopTr_step env (fuel + 1) k b.cycle []
    · exact hb
    · exact Nat.le_refl b.cycle
    · show drainLoopTr env (fuel + 1) (runTask env { b with hlwd := hg, tasks := [] } k) 0
        = some (b1, [])
      rw [e1]
      exact drainLoopTr_nil env fuel hb1t
  have hTr' : drainLoopTr env (fuel + 2) (stepPre env b cpu) 0
      = some (b1, [{ kind := k, target_cycle := b.cycle }]) := by
    rw [hpre]
    exact hTr
  have hdr : drain_tasks env (fuel + 2) (stepPre env b cpu) = some b1 := by
    show drainLoop env (fuel + 2) (stepPre env b cpu) 0 = some b1
    rw [← drainLoopTr_fst, hTr']
    rfl
  have hne : ¬ ((stepPre env b cpu).tasks.isEmpty = true) := by
    rw [hpre]
    show ¬ (b.tasks.isEmpty = true)
    rw [hb]
    simp
  have hstep : step env (fuel + 2) b cpu = some { b1 with cycle := b1.cycle + 1 } := by
    have hd : step env (fuel + 2) b cpu
        = match (if (stepPre env b cpu).tasks.isEmpty then some (stepPre env b cpu)
            else drain_tasks env (fuel + 2) (stepPre env b cpu)) with
          | none => none
          | some b2 => some { b2 with cycle := b2.cycle + 1 } := rfl
    rw [hd, if_neg hne, hdr]
  exact ⟨hTr', hstep, hb1t, hb1c⟩

/-- Witness for C7: the spec's NAND scenario — a single zero-delay NAND
completion task, one `step`, handler fired once, queue empty, cycle 0 → 1. -/
theorem C7_zero_delay_task_one_step_witness :
    oneNandBus.tasks = [{ kind := BusTask.Nand 1, target_cycle := oneNandBus.cycle }] ∧
    unitEnv.stepHlwd oneNandBus.hlwd 0 = (unitBus.hlwd, []) ∧
    applyHandler unitEnv { oneNandBus with hlwd := unitBus.hlwd, tasks := [] }
        (BusTask.Nand 1) = (unitBus, []) ∧
    (drainLoopTr unitEnv (0 + 2) (stepPre unitEnv oneNandBus 0) 0
        = some (unitBus, [{ kind := BusTask.Nand 1, target_cycle := oneNandBus.cycle }]) ∧
     step unitEnv (0 + 2) oneNandBus 0 = some { unitBus with cycle := unitBus.cycle + 1 } ∧
     unitBus.tasks = [] ∧ unitBus.cycle = oneNandBus.cycle) :=
  ⟨rfl, rfl, rfl,
    C7_zero_delay_task_one_step Unit unitEnv 0 oneNandBus 0 unitBus.hlwd
      (BusTask.Nand 1) unitBus rfl rfl rfl⟩

end Ironic
